import Mathlib

/-!
Shallow embedding of the metadata-extraction core of `src/sid.py`
(image EXIF/GPS highlight extractor).

Modelling conventions:
* Python floats are modelled as exact rationals (`ℚ`); Python `round`
  (round-half-even) is `pyRound0`/`round6` below.
* Python `None` is `Option.none`; a function that can raise and whose
  exceptions are caught by the caller is modelled as returning `Option`.
* Python strings are Lean `String`s; dynamic tag values are modelled by
  small inductive types covering the value shapes the program handles.
-/

namespace Sid

/-- A value fed to `ratio_to_float` (src/sid.py:41-51).  `ratObj` models an
object exposing `num`/`den` attributes (the exifread Ratio type), `pair` a
2-tuple of numbers, `num` a plain number (for which `float(r)` succeeds),
and `junk` any value for which `float(r)` raises. -/
inductive RVal where
  | ratObj (num den : ℚ)
  | pair (num den : ℚ)
  | num (x : ℚ)
  | junk
deriving DecidableEq

/-- src/sid.py:41-51.  Note the source returns `0.0` (not `None`) when the
denominator is zero; `None` is returned only when the `float(...)`
conversion raises (the `junk` case). -/
def ratio_to_float : RVal → Option ℚ
  | .ratObj n d => some (if d ≠ 0 then n / d else 0)
  | .pair n d => some (if d ≠ 0 then n / d else 0)
  | .num x => some x
  | .junk => none

/-- src/sid.py:53-63.  Indexing `dms[i]` on a too-short sequence raises
`IndexError`, caught by the surrounding `try`, hence the `none` fall-through
when any of the three positions is missing. -/
def dms_to_decimal (dms : List RVal) : Option ℚ :=
  match dms[0]?, dms[1]?, dms[2]? with
  | some a, some b, some c =>
    match ratio_to_float a, ratio_to_float b, ratio_to_float c with
    | some d, some m, some s => some (d + m / 60 + s / 3600)
    | _, _, _ => none
  | _, _, _ => none

/-- Python `round(q)` to an integer: round half to even (bankers rounding),
on the exact rational value. -/
def pyRound0 (q : ℚ) : ℤ :=
  if q - (⌊q⌋ : ℚ) < 1 / 2 then ⌊q⌋
  else if 1 / 2 < q - (⌊q⌋ : ℚ) then ⌊q⌋ + 1
  else if ⌊q⌋ % 2 = 0 then ⌊q⌋ else ⌊q⌋ + 1

/-- Python `round(q, 6)`: round to 6 decimal places. -/
def round6 (q : ℚ) : ℚ := (pyRound0 (q * 1000000) : ℚ) / 1000000

/-- An exifread tag object: `str` is its `str(...)` rendering; `values` is
its `.values` attribute when that attribute exists and is a sequence of
rational-like values (`none` models a tag object whose `.values` access
raises, caught by the GPS `try` block). -/
structure TagVal where
  str : String
  values : Option (List RVal)
deriving DecidableEq

/-- The tag mapping consumed by `parse_exifread_tags`, as an association
list with the first binding of a key winning (Python dict keys are unique). -/
abbrev Tags := List (String × TagVal)

def lookupTag (tags : Tags) (k : String) : Option TagVal :=
  (tags.find? (fun p => p.1 == k)).map (·.2)

/-- `k in tags`. -/
def hasTag (tags : Tags) (k : String) : Bool :=
  (lookupTag tags k).isSome

/-- `str(tags[k]) if k in tags else None` (src/sid.py:68-69). -/
def getS (tags : Tags) (k : String) : Option String :=
  (lookupTag tags k).map (·.str)

/-- Python `a or b` on optional strings: `None` and `""` are falsy. -/
def pyOrS : Option String → Option String → Option String
  | some s, b => if s = "" then b else some s
  | none, b => b

/-- ASCII uppercasing of one character (Python `str.upper` restricted to
the ASCII range; EXIF reference tags are single ASCII letters). -/
def pyUpperChar (c : Char) : Char :=
  if 97 ≤ c.toNat ∧ c.toNat ≤ 122 then Char.ofNat (c.toNat - 32) else c

/-- Python `s.upper()` (ASCII). -/
def pyUpper (s : String) : String := String.mk (s.data.map pyUpperChar)

/-- Python `s.startswith(pre)`. -/
def pyStartsWith (s pre : String) : Bool := pre.data.isPrefixOf s.data

/-- The GPS dict stored at `out[gps]` (src/sid.py:90-91). -/
structure Gps where
  lat : ℚ
  lon : ℚ
  lat_ref : String
  lon_ref : String
deriving DecidableEq

/-- The output of `parse_exifread_tags` (src/sid.py:65-94): the five string
fields plus the optional `gps` entry. -/
structure FlatTags where
  make : Option String
  model : Option String
  datetime_original : Option String
  software : Option String
  artist : Option String
  gps : Option Gps
deriving DecidableEq

/-- `str(tags.get(k, <empty>)).upper()` (src/sid.py:81-82). -/
def gpsRefStr (tags : Tags) (k : String) : String :=
  pyUpper (((lookupTag tags k).map (·.str)).getD "")

/-- The GPS block of `parse_exifread_tags` (src/sid.py:77-93).  Every
`none` produced inside the guarded region models an exception swallowed by
the `except: pass`, or the `if lat is not None and lon is not None` guard
failing; in all such cases no `gps` entry is produced. -/
def gpsOf (tags : Tags) : Option Gps :=
  if hasTag tags "GPS GPSLatitude" && hasTag tags "GPS GPSLongitude" then
    match (lookupTag tags "GPS GPSLatitude").bind (·.values),
          (lookupTag tags "GPS GPSLongitude").bind (·.values) with
    | some latVals, some lonVals =>
      let latRef := gpsRefStr tags "GPS GPSLatitudeRef"
      let lonRef := gpsRefStr tags "GPS GPSLongitudeRef"
      match dms_to_decimal latVals, dms_to_decimal lonVals with
      | some lat0, some lon0 =>
        let lat := if latRef ≠ "" ∧ pyStartsWith latRef "S" then -|lat0| else lat0
        let lon := if lonRef ≠ "" ∧ pyStartsWith lonRef "W" then -|lon0| else lon0
        some { lat := round6 lat, lon := round6 lon, lat_ref := latRef, lon_ref := lonRef }
      | _, _ => none
    | _, _ => none
  else none

/-- src/sid.py:65-94. -/
def parse_exifread_tags (tags : Tags) : FlatTags :=
  { make := pyOrS (getS tags "Image Make") (getS tags "Make")
    model := pyOrS (getS tags "Image Model") (getS tags "Model")
    datetime_original :=
      pyOrS (getS tags "EXIF DateTimeOriginal")
        (pyOrS (getS tags "EXIF DateTimeDigitized") (getS tags "Image DateTime"))
    software := pyOrS (getS tags "Image Software") (getS tags "Software")
    artist :=
      pyOrS (getS tags "Image Artist")
        (pyOrS (getS tags "EXIF Artist") (getS tags "Artist"))
    gps := gpsOf tags }

/-- The four tag keys consulted only by the GPS block. -/
def gpsKeys : List String :=
  ["GPS GPSLatitude", "GPS GPSLongitude", "GPS GPSLatitudeRef", "GPS GPSLongitudeRef"]

/-- A tag mapping with the GPS tags removed (used to state that a GPS
failure leaves the other fields exactly as if the GPS tags were absent). -/
def stripGps (tags : Tags) : Tags :=
  tags.filter (fun p => !(gpsKeys.contains p.1))

/-- Is a byte a UTF-8 continuation byte? -/
def isCont (b : ℕ) : Bool := 0x80 ≤ b && b ≤ 0xBF

/-- The Unicode replacement character emitted for invalid sequences. -/
def replChar : Char := Char.ofNat 0xFFFD

/-- Valid ranges for the first continuation byte of a 3-byte sequence. -/
def cont3 (b b1 : ℕ) : Bool :=
  if b = 0xE0 then 0xA0 ≤ b1 && b1 ≤ 0xBF
  else if b = 0xED then 0x80 ≤ b1 && b1 ≤ 0x9F
  else isCont b1

/-- Valid ranges for the first continuation byte of a 4-byte sequence. -/
def cont4 (b b1 : ℕ) : Bool :=
  if b = 0xF0 then 0x90 ≤ b1 && b1 ≤ 0xBF
  else if b = 0xF4 then 0x80 ≤ b1 && b1 ≤ 0x8F
  else isCont b1

/-- One step of UTF-8 decoding with replacement (the behaviour of Python
`bytes.decode(utf-8, errors=replace)`): given the lead byte `b` and the
remaining bytes, return the decoded character and how many further bytes
were consumed; on an invalid sequence the maximal valid subpart (at least
the lead byte) is consumed and `replChar` emitted. -/
def utf8Step (b : ℕ) (rest : List ℕ) : Char × ℕ :=
  if b < 0x80 then (Char.ofNat b, 0)
  else if 0xC2 ≤ b && b ≤ 0xDF then
    match rest with
    | b1 :: _ =>
      if isCont b1 then (Char.ofNat ((b - 0xC0) * 64 + (b1 - 0x80)), 1)
      else (replChar, 0)
    | [] => (replChar, 0)
  else if 0xE0 ≤ b && b ≤ 0xEF then
    match rest with
    | b1 :: r1 =>
      if cont3 b b1 then
        match r1 with
        | b2 :: _ =>
          if isCont b2 then
            (Char.ofNat ((b - 0xE0) * 4096 + (b1 - 0x80) * 64 + (b2 - 0x80)), 2)
          else (replChar, 1)
        | [] => (replChar, 1)
      else (replChar, 0)
    | [] => (replChar, 0)
  else if 0xF0 ≤ b && b ≤ 0xF4 then
    match rest with
    | b1 :: r1 =>
      if cont4 b b1 then
        match r1 with
        | b2 :: r2 =>
          if isCont b2 then
            match r2 with
            | b3 :: _ =>
              if isCont b3 then
                (Char.ofNat
                  ((b - 0xF0) * 262144 + (b1 - 0x80) * 4096 + (b2 - 0x80) * 64 + (b3 - 0x80)), 3)
              else (replChar, 2)
            | [] => (replChar, 2)
          else (replChar, 1)
        | [] => (replChar, 1)
      else (replChar, 0)
    | [] => (replChar, 0)
  else (replChar, 0)

/-- The decode loop, structurally recursive on a fuel argument; the
wrapper passes the byte count as fuel, which always suffices because every
step consumes at least one byte, so the fuel-exhausted arm is unreachable. -/
def decodeUtf8Go : ℕ → List ℕ → List Char
  | _, [] => []
  | 0, _ :: _ => []
  | fuel + 1, b :: rest =>
    let s := utf8Step b rest
    s.1 :: decodeUtf8Go fuel (rest.drop s.2)

/-- `bytes.decode(utf-8, errors=replace)` on a byte list. -/
def decodeUtf8Replace (l : List ℕ) : List Char := decodeUtf8Go l.length l

/-- Python `s.strip(NUL)`: remove leading AND trailing NUL characters. -/
def stripNulChars (cs : List Char) : List Char :=
  ((cs.dropWhile (· == Char.ofNat 0)).reverse.dropWhile (· == Char.ofNat 0)).reverse

/-- A value held in a piexif IFD entry: raw bytes, already-text, or a
non-bytes scalar (e.g. an int), which `clean` passes through unchanged. -/
inductive PVal where
  | bytes (bs : List ℕ)
  | text (s : String)
  | intv (n : ℤ)
deriving DecidableEq

/-- The per-value part of `clean` (src/sid.py:107-113): bytes are decoded
permissively and NUL-stripped at both ends (the source strips with NUL as the char set); the
`except` fallback to `repr(val)` is unreachable because decoding with
replacement never raises; non-bytes values pass through. -/
def cleanVal : PVal → PVal
  | .bytes bs => .text (String.mk (stripNulChars (decodeUtf8Replace bs)))
  | v => v

/-- The tree produced by `piexif.load`: IFD name to (numeric tag, value)
entries. -/
abbrev PiexifTree := List (String × List (ℕ × PVal))

/-- The cleaned tree: IFD name to (resolved tag name, cleaned value). -/
abbrev PiexifOut := List (String × List (String × PVal))

/-- src/sid.py:96-115.  `tbl` models the external `piexif.TAGS` name table
(`piexif.TAGS.get(ifd).get(tag).get(name)` defaulting to `str(tag)`); `loaded`
is `some tree` on a successful `piexif.load` and `none` when it raised, in
which case the function returns the empty tree. -/
def parse_piexif (tbl : String → ℕ → Option String) (loaded : Option PiexifTree) : PiexifOut :=
  match loaded with
  | none => []
  | some ex =>
    ex.map (fun p =>
      (p.1, p.2.map (fun q => ((tbl p.1 q.1).getD (toString q.1), cleanVal q.2))))

/-- Python dict `.get(ifd, {}).get(key)` over the cleaned tree. -/
def pget (px : PiexifOut) (ifd key : String) : Option PVal :=
  (((px.find? (fun p => p.1 == ifd)).map (·.2)).getD []).find? (fun q => q.1 == key)
    |>.map (·.2)

/-- Python truthiness of a tag value. -/
def truthy : PVal → Bool
  | .bytes bs => !bs.isEmpty
  | .text s => s ≠ ""
  | .intv n => n ≠ 0

/-- Python `a or b` where either side may be `None` or a falsy value. -/
def pyOrV : Option PVal → Option PVal → Option PVal
  | some v, b => if truthy v then some v else b
  | none, b => b

/-- Truthiness of an optional value (`None` is falsy). -/
def truthyO : Option PVal → Bool
  | some v => truthy v
  | none => false

/-- Lift a flat-extractor string field into a tag value. -/
def oStr (o : Option String) : Option PVal := o.map .text

/-- Render a tag value as a string for the space-join (src/sid.py:170).  In
Python, joining a non-`str` element raises; the embedding totalises that
branch with a canonical rendering (no claim depends on non-string values
reaching the join). -/
def asStr : PVal → String
  | .text s => s
  | .bytes bs => toString bs
  | .intv n => toString n

/-- Python `sep.join(parts)`. -/
def pyJoin (sep : String) : List String → String
  | [] => ""
  | [s] => s
  | s :: rest => s ++ sep ++ pyJoin sep rest

/-- Truthiness of an optional string. -/
def truthyS : Option String → Bool
  | some s => s ≠ ""
  | none => false

/-- Truthiness of an optional natural (width/height: `None` and `0` falsy). -/
def truthyN : Option ℕ → Bool
  | some n => n ≠ 0
  | none => false

/-- The `device` highlight (src/sid.py:166-170). -/
def deviceOf (parsed : FlatTags) (px : PiexifOut) : Option String :=
  let mk := pyOrV (oStr parsed.make) (pget px "0th" "Make")
  let md := pyOrV (oStr parsed.model) (pget px "0th" "Model")
  if truthyO (pyOrV mk md) then
    some (pyJoin " " ((([mk, md].filterMap id).filter truthy).map asStr))
  else none

/-- The `author` highlight (src/sid.py:171-174). -/
def authorOf (parsed : FlatTags) (px : PiexifOut) : Option PVal :=
  let a := pyOrV (oStr parsed.artist) (pget px "0th" "Artist")
  if truthyO a then a else none

/-- The `software` highlight (src/sid.py:175-178). -/
def softwareOf (parsed : FlatTags) (px : PiexifOut) : Option PVal :=
  let sw := pyOrV (oStr parsed.software) (pget px "0th" "Software")
  if truthyO sw then sw else none

/-- The `datetime_original` highlight (src/sid.py:179-191): the flat value
if truthy, else the structured `0th.DateTime` or `Exif.DateTimeOriginal`;
a bytes value is decoded permissively (the except fallback to `str(dt)` is
unreachable since replacement decoding never raises). -/
def datetimeOf (parsed : FlatTags) (px : PiexifOut) : Option PVal :=
  let dt0 := oStr parsed.datetime_original
  let dt1 :=
    if truthyO dt0 then dt0
    else pyOrV (pget px "0th" "DateTime") (pget px "Exif" "DateTimeOriginal")
  let dt2 : Option PVal :=
    match dt1 with
    | some (.bytes bs) => some (.text (String.mk (decodeUtf8Replace bs)))
    | x => x
  if truthyO dt2 then dt2 else none

/-- Python float interpolation renders the shortest round-trip decimal; in
the exact-rational model we render the rational directly.  No claim
depends on this rendering. -/
def fmtFloat (q : ℚ) : String := toString q

/-- Python format `.1f`: one decimal place, round half to even, with a
leading minus sign for negative values. -/
def fmt1 (q : ℚ) : String :=
  let m := (pyRound0 (|q| * 10)).toNat
  let ip := m / 10
  let fd := m % 10
  let core := toString ip ++ "." ++ toString fd
  if q < 0 then "-" ++ core else core

/-- The loop of `human_size` (src/sid.py:35-39): try each unit in turn,
dividing by 1024, and fall through to PB. -/
def hsGo : ℚ → List String → String
  | n, [] => fmt1 n ++ "PB"
  | n, u :: us => if n < 1024 then fmt1 n ++ u else hsGo (n / 1024) us

/-- src/sid.py:34-39. -/
def human_size (n : ℚ) : String :=
  hsGo n ["B", "KB", "MB", "GB", "TB"]

/-- The four fixed missing-data warnings (src/sid.py:205-212). -/
def noteGps : String := "No GPS data found (or stripped by app)."

def noteAuthor : String := "No author/artist metadata found."

def noteDevice : String := "No device/make/model info found."

def noteDatetime : String := "No DateTimeOriginal found."

/-- The notes block (src/sid.py:203-213): one fixed warning appended for
each of GPS, author, device, datetime found missing, in that order.  The
conditions are the Python truthiness tests `not highlights.get(key)`; a
present GPS dict is always truthy. -/
def notesOf (g : Option Gps) (a : Option PVal) (d : Option String) (dt : Option PVal) :
    List String :=
  (if g.isSome then [] else [noteGps]) ++
  (if truthyO a then [] else [noteAuthor]) ++
  (if truthyS d then [] else [noteDevice]) ++
  (if truthyO dt then [] else [noteDatetime])

/-- The reconciled highlights dict (src/sid.py:164-215). -/
structure Highlights where
  device : Option String
  author : Option PVal
  software : Option PVal
  datetime_original : Option PVal
  gps_decimal : Option String
  gps : Option Gps
  dimensions : Option String
  file_size : Option String
  notes : List String
deriving DecidableEq

/-- The highlight-construction section of `extract_one`
(src/sid.py:164-215), as a function of the flat-extractor output `parsed`
(`{}` on an exifread failure is the all-`none` record), the cleaned piexif
tree `px`, and the stat/PIL-derived width, height and human size. -/
def buildHighlights (parsed : FlatTags) (px : PiexifOut) (w h : Option ℕ)
    (sizeHuman : Option String) : Highlights :=
  let dev := deviceOf parsed px
  let au := authorOf parsed px
  let sw := softwareOf parsed px
  let dt := datetimeOf parsed px
  let g := parsed.gps
  { device := dev
    author := au
    software := sw
    datetime_original := dt
    gps_decimal := g.map (fun gg => fmtFloat gg.lat ++ ", " ++ fmtFloat gg.lon)
    gps := g
    dimensions :=
      if truthyN w && truthyN h then
        some (toString (w.getD 0) ++ "x" ++ toString (h.getD 0))
      else none
    file_size := if truthyS sizeHuman then sizeHuman else none
    notes := notesOf g au dev dt }

/-- A flat-extractor record with every field absent (what an exifread
failure, `parsed = {}`, looks like to the highlight builder). -/
def emptyFlat : FlatTags :=
  { make := none, model := none, datetime_original := none, software := none
    artist := none, gps := none }

/-- A zero DMS triple: degrees, minutes, seconds all `0/1`. -/
def zeroDms : List RVal := [RVal.pair 0 1, RVal.pair 0 1, RVal.pair 0 1]

/-- Concrete tag mapping: zero coordinates with southern/western
references. -/
def southZeroTags : Tags :=
  [("GPS GPSLatitude", { str := "[0, 0, 0]", values := some zeroDms }),
   ("GPS GPSLongitude", { str := "[0, 0, 0]", values := some zeroDms }),
   ("GPS GPSLatitudeRef", { str := "S", values := none }),
   ("GPS GPSLongitudeRef", { str := "W", values := none })]

/-- The unit chosen by `human_size` after `k` divisions by 1024. -/
def unitAt (k : ℕ) : String := ["B", "KB", "MB", "GB", "TB", "PB"].getD k ""

/-- An empty tag-name table (every tag falls back to `str(tag)`). -/
def noTbl : String → ℕ → Option String := fun _ _ => none

/-- A structured tree holding one bytes value with a leading NUL byte. -/
def nulByteTree : PiexifTree := [("0th", [(0, PVal.bytes [0, 97])])]

/-- The spec reading of the byte cleaning: permissive decoding with ONLY
trailing (not leading) NUL characters stripped.  Stated from the spec
words for comparison with `cleanVal`, which follows the source. -/
def cleanValSpecTrailing : PVal → PVal
  | .bytes bs =>
    .text (String.mk (((decodeUtf8Replace bs).reverse.dropWhile (· == Char.ofNat 0)).reverse))
  | v => v

/-! ## Theorems -/

/-- C1: the claim says a numerator/denominator pair with zero denominator
makes `ratio_to_float` return `None`; the source (src/sid.py:45,48)
instead returns `0.0` for a zero denominator. -/
theorem C1_zero_den_counterexample :
    ratio_to_float (RVal.pair 1 0) = some 0 ∧ ratio_to_float (RVal.pair 1 0) ≠ none := by
  constructor
  · simp [ratio_to_float]
  · simp [ratio_to_float]

/-- C1 (amended): for a num/den object or 2-tuple with nonzero
denominator, `ratio_to_float` returns the quotient; with a zero
denominator it returns `0.0` (not `None`); a plain number is returned
as-is; an unparseable input yields `None`; the function never raises. -/
theorem C1_ratio_to_float_amended (n d : ℚ) :
    (d ≠ 0 →
      ratio_to_float (RVal.ratObj n d) = some (n / d) ∧
        ratio_to_float (RVal.pair n d) = some (n / d)) ∧
    (d = 0 →
      ratio_to_float (RVal.ratObj n d) = some 0 ∧
        ratio_to_float (RVal.pair n d) = some 0) ∧
    ratio_to_float (RVal.num n) = some n ∧
    ratio_to_float RVal.junk = none := by
  refine ⟨fun hd => ⟨by simp [ratio_to_float, hd], by simp [ratio_to_float, hd]⟩,
    fun hd => ⟨by simp [ratio_to_float, hd], by simp [ratio_to_float, hd]⟩, rfl, rfl⟩

/-- C1 witness: the amended theorem applied at `3/2` and at `1/0`. -/
theorem C1_ratio_to_float_amended_witness :
    ratio_to_float (RVal.ratObj 3 2) = some (3 / 2) ∧
      ratio_to_float (RVal.pair 1 0) = some 0 :=
  ⟨((C1_ratio_to_float_amended 3 2).1 (by norm_num)).1,
    ((C1_ratio_to_float_amended 1 0).2.1 rfl).2⟩

/-- C3: on a 3-element sequence, `dms_to_decimal` is `None` as soon as one
component conversion is `None`, and otherwise returns
`d + m/60 + s/3600` with no hemisphere sign applied. -/
theorem C3_dms_to_decimal_formula (a b c : RVal) :
    (ratio_to_float a = none ∨ ratio_to_float b = none ∨ ratio_to_float c = none →
      dms_to_decimal [a, b, c] = none) ∧
    (∀ d m s : ℚ, ratio_to_float a = some d → ratio_to_float b = some m →
      ratio_to_float c = some s →
      dms_to_decimal [a, b, c] = some (d + m / 60 + s / 3600)) := by
  constructor
  · intro h
    cases ha : ratio_to_float a <;> cases hb : ratio_to_float b <;>
      cases hc : ratio_to_float c <;>
      simp_all [dms_to_decimal]
  · intro d m s hd hm hs
    simp [dms_to_decimal, hd, hm, hs]

/-- C3 witness: a triple whose seconds component is unparseable, and a
fully convertible triple. -/
theorem C3_dms_to_decimal_formula_witness :
    dms_to_decimal [RVal.pair 40 1, RVal.pair 26 1, RVal.junk] = none ∧
      dms_to_decimal [RVal.pair 40 1, RVal.pair 26 1, RVal.pair 30 1] =
        some (40 + 26 / 60 + 30 / 3600) := by
  constructor
  · exact (C3_dms_to_decimal_formula (RVal.pair 40 1) (RVal.pair 26 1) RVal.junk).1
      (Or.inr (Or.inr rfl))
  · refine (C3_dms_to_decimal_formula (RVal.pair 40 1) (RVal.pair 26 1) (RVal.pair 30 1)).2
      40 26 30 ?_ ?_ ?_ <;> simp [ratio_to_float]

/-- C10: `dms_to_decimal` never raises on short sequences: any input with
fewer than 3 elements yields `None` (the `IndexError` is raised inside the
guarded block and caught). -/
theorem C10_dms_to_decimal_short_input (l : List RVal) (h : l.length < 3) :
    dms_to_decimal l = none := by
  have h2 : l[2]? = none := by
    rw [List.getElem?_eq_none_iff]
    omega
  unfold dms_to_decimal
  split <;> simp_all

/-- C10 witness: the empty sequence. -/
theorem C10_dms_to_decimal_short_input_witness :
    ([] : List RVal).length < 3 ∧ dms_to_decimal ([] : List RVal) = none :=
  ⟨by norm_num, C10_dms_to_decimal_short_input [] (by norm_num)⟩

/-- Removing the GPS tags does not change the lookup of any non-GPS key. -/
lemma lookupTag_stripGps_of_not_mem (tags : Tags) (k : String) (h : k ∉ gpsKeys) :
    lookupTag (stripGps tags) k = lookupTag tags k := by
  induction tags with
  | nil => rfl
  | cons p rest ih =>
    unfold stripGps lookupTag at *
    rw [List.filter_cons]
    by_cases hp : gpsKeys.contains p.1
    · have hpk : (p.1 == k) = false := by
        rw [beq_eq_false_iff_ne]
        intro he
        exact h (by
          rw [← he]
          simpa using hp)
      simp only [hp, Bool.not_true, Bool.false_eq_true, if_false, List.find?_cons, hpk]
      exact ih
    · have hp' : (!gpsKeys.contains p.1) = true := by
        simp only [Bool.not_eq_true', ← Bool.not_eq_true]
        exact hp
      simp only [hp', if_true, List.find?_cons]
      cases hk : (p.1 == k) with
      | true => rfl
      | false => exact ih

/-- After removing the GPS tags, looking up a GPS key yields nothing. -/
lemma lookupTag_stripGps_of_mem (tags : Tags) (k : String) (h : k ∈ gpsKeys) :
    lookupTag (stripGps tags) k = none := by
  unfold lookupTag
  rw [List.find?_eq_none.mpr]
  · rfl
  · intro x hx
    have hxk : ¬(gpsKeys.contains x.1) = true := by
      have := List.of_mem_filter hx
      simpa using this
    intro hbe
    exact hxk (by
      have : x.1 = k := by simpa using hbe
      rw [this]
      simpa using h)

/-- C9: a failure inside the GPS block is swallowed and only the `gps`
field is omitted: running the flat extractor on a mapping with the GPS
tags removed gives exactly the same record as the original run with its
`gps` field erased, so the non-GPS fields (make, model,
datetime_original, software, artist) never depend on the GPS tags or on a
GPS-parsing failure. -/
theorem C9_gps_failure_does_not_affect_other_fields (tags : Tags) :
    parse_exifread_tags (stripGps tags) =
      { parse_exifread_tags tags with gps := none } := by
  have L : ∀ k, k ∉ gpsKeys → getS (stripGps tags) k = getS tags k := by
    intro k hk
    unfold getS
    rw [lookupTag_stripGps_of_not_mem tags k hk]
  have hg : gpsOf (stripGps tags) = none := by
    unfold gpsOf hasTag
    rw [lookupTag_stripGps_of_mem tags "GPS GPSLatitude" (by decide)]
    rfl
  unfold parse_exifread_tags
  rw [L "Image Make" (by decide), L "Make" (by decide), L "Image Model" (by decide),
    L "Model" (by decide), L "EXIF DateTimeOriginal" (by decide),
    L "EXIF DateTimeDigitized" (by decide), L "Image DateTime" (by decide),
    L "Image Software" (by decide), L "Software" (by decide),
    L "Image Artist" (by decide), L "EXIF Artist" (by decide), L "Artist" (by decide), hg]

/-- Bankers rounding of a nonpositive rational is nonpositive. -/
lemma pyRound0_nonpos {q : ℚ} (h : q ≤ 0) : pyRound0 q ≤ 0 := by
  have hf : ⌊q⌋ ≤ 0 := Int.floor_nonpos h
  unfold pyRound0
  split_ifs with h1 h2 h3
  · exact hf
  · by_contra hc
    push_neg at hc
    have hf0 : ⌊q⌋ = 0 := by omega
    rw [hf0] at h2
    push_cast at h2
    linarith
  · exact hf
  · have heq : q - (⌊q⌋ : ℚ) = 1 / 2 := le_antisymm (not_lt.mp h2) (not_lt.mp h1)
    have hlt : (⌊q⌋ : ℚ) ≤ -(1 / 2) := by linarith
    have hq0 : (⌊q⌋ : ℚ) < 0 := lt_of_le_of_lt hlt (by norm_num)
    have : ⌊q⌋ < 0 := by exact_mod_cast hq0
    omega

/-- Rounding to six decimals preserves nonpositivity. -/
lemma round6_nonpos {q : ℚ} (h : q ≤ 0) : round6 q ≤ 0 := by
  have h1 : pyRound0 (q * 1000000) ≤ 0 := by
    refine pyRound0_nonpos ?_
    have := mul_le_mul_of_nonneg_right h (by norm_num : (0 : ℚ) ≤ 1000000)
    simpa using this
  have h2 : ((pyRound0 (q * 1000000) : ℚ)) ≤ 0 := by exact_mod_cast h1
  unfold round6
  exact div_nonpos_iff.mpr (Or.inr ⟨h2, by norm_num⟩)

/-- The zero DMS triple converts to 0 decimal degrees. -/
lemma dms_zeroDms : dms_to_decimal zeroDms = some 0 := by
  norm_num [zeroDms, dms_to_decimal, ratio_to_float]

/-- round6 fixes 0. -/
lemma round6_zero : round6 0 = 0 := by
  norm_num [round6, pyRound0]

/-- The concrete southern/western zero-coordinate mapping yields a GPS
record with zero coordinates and references S and W. -/
lemma southZeroTags_gps :
    (parse_exifread_tags southZeroTags).gps =
      some { lat := 0, lon := 0, lat_ref := "S", lon_ref := "W" } := by
  show gpsOf southZeroTags = _
  unfold gpsOf
  have hcond :
      (hasTag southZeroTags "GPS GPSLatitude" && hasTag southZeroTags "GPS GPSLongitude") =
        true := by decide
  rw [if_pos hcond]
  have hlat : (lookupTag southZeroTags "GPS GPSLatitude").bind TagVal.values = some zeroDms :=
    rfl
  have hlon : (lookupTag southZeroTags "GPS GPSLongitude").bind TagVal.values = some zeroDms :=
    rfl
  rw [hlat, hlon]
  have hrefLat : gpsRefStr southZeroTags "GPS GPSLatitudeRef" = "S" := by decide
  have hrefLon : gpsRefStr southZeroTags "GPS GPSLongitudeRef" = "W" := by decide
  rw [hrefLat, hrefLon]
  dsimp only
  rw [dms_zeroDms]
  dsimp only
  have hcS : (("S" : String) ≠ "" ∧ pyStartsWith "S" "S" = true) := by
    constructor
    · decide
    · decide
  have hcW : (("W" : String) ≠ "" ∧ pyStartsWith "W" "W" = true) := by
    constructor
    · decide
    · decide
  simp only [if_pos hcS, if_pos hcW, abs_zero, neg_zero, round6_zero]

/-- C2 (counterexample to the stated iff): at the southern/western
zero-coordinate input the highlights carry a GPS record with
`lat_ref = "S"` but `lat = 0`, which is not negative, so
`lat < 0 ⇔ lat_ref = "S"` fails on the code. -/
theorem C2_sign_iff_counterexample :
    ∃ g : Gps,
      (buildHighlights (parse_exifread_tags southZeroTags) [] none none none).gps = some g ∧
        g.lat_ref = "S" ∧ ¬(g.lat < 0) := by
  refine ⟨{ lat := 0, lon := 0, lat_ref := "S", lon_ref := "W" }, ?_, rfl, by norm_num⟩
  show (parse_exifread_tags southZeroTags).gps = _
  exact southZeroTags_gps

/-- C2 (amended): for every record whose highlights contain a GPS entry,
if the latitude reference starts with S the latitude is nonpositive (the
source stores the negated absolute value), if the longitude reference
starts with W the longitude is nonpositive, and both coordinates are
rounded to 6 decimal places (they are integer multiples of 10^-6). -/
theorem C2_gps_sign_amended (tags : Tags) (px : PiexifOut) (w h : Option ℕ)
    (sh : Option String) (g : Gps)
    (hg : (buildHighlights (parse_exifread_tags tags) px w h sh).gps = some g) :
    (pyStartsWith g.lat_ref "S" = true → g.lat ≤ 0) ∧
    (pyStartsWith g.lon_ref "W" = true → g.lon ≤ 0) ∧
    (∃ a : ℤ, g.lat = (a : ℚ) / 1000000) ∧ (∃ b : ℤ, g.lon = (b : ℚ) / 1000000) := by
  have hg' : gpsOf tags = some g := hg
  unfold gpsOf at hg'
  split at hg'
  · split at hg'
    · split at hg'
      · rw [Option.some_inj] at hg'
        subst hg'
        refine ⟨?_, ?_, ⟨_, rfl⟩, ⟨_, rfl⟩⟩
        · intro hS
          simp only at hS ⊢
          have hne : gpsRefStr tags "GPS GPSLatitudeRef" ≠ "" := by
            intro h0
            rw [h0] at hS
            exact absurd hS (by decide)
          rw [if_pos ⟨hne, hS⟩]
          exact round6_nonpos (neg_nonpos.mpr (abs_nonneg _))
        · intro hW
          simp only at hW ⊢
          have hne : gpsRefStr tags "GPS GPSLongitudeRef" ≠ "" := by
            intro h0
            rw [h0] at hW
            exact absurd hW (by decide)
          rw [if_pos ⟨hne, hW⟩]
          exact round6_nonpos (neg_nonpos.mpr (abs_nonneg _))
      · exact absurd hg' (by simp)
    · exact absurd hg' (by simp)
  · exact absurd hg' (by simp)

/-- C2 witness: the amended theorem applied at the concrete
southern/western zero-coordinate input. -/
theorem C2_gps_sign_amended_witness :
    ((0 : ℚ) ≤ 0) ∧ (∃ a : ℤ, (0 : ℚ) = (a : ℚ) / 1000000) := by
  have h := C2_gps_sign_amended southZeroTags [] none none none
    { lat := 0, lon := 0, lat_ref := "S", lon_ref := "W" } southZeroTags_gps
  exact ⟨h.1 (by decide), h.2.2.1⟩

/-- C4: a GPS result is produced only when both the latitude and the
longitude tags are present and both DMS conversions succeed; a `Gps`
record structurally carries both coordinates, so no partial GPS result
can exist. -/
theorem C4_gps_requires_both_and_no_partial (tags : Tags) (g : Gps)
    (hg : (parse_exifread_tags tags).gps = some g) :
    hasTag tags "GPS GPSLatitude" = true ∧ hasTag tags "GPS GPSLongitude" = true ∧
    ∃ (lv lov : List RVal) (lat0 lon0 : ℚ),
      (lookupTag tags "GPS GPSLatitude").bind TagVal.values = some lv ∧
      (lookupTag tags "GPS GPSLongitude").bind TagVal.values = some lov ∧
      dms_to_decimal lv = some lat0 ∧ dms_to_decimal lov = some lon0 := by
  have hg' : gpsOf tags = some g := hg
  unfold gpsOf at hg'
  split at hg'
  case isTrue hcond =>
    rw [Bool.and_eq_true] at hcond
    refine ⟨hcond.1, hcond.2, ?_⟩
    split at hg'
    case h_1 lv lov heq1 heq2 =>
      split at hg'
      case h_1 lat0 lon0 heq3 heq4 => exact ⟨lv, lov, lat0, lon0, heq1, heq2, heq3, heq4⟩
      case h_2 => exact absurd hg' (by simp)
    case h_2 => exact absurd hg' (by simp)
  case isFalse => exact absurd hg' (by simp)

/-- C4 witness: the southern/western zero-coordinate mapping. -/
theorem C4_gps_requires_both_and_no_partial_witness :
    hasTag southZeroTags "GPS GPSLatitude" = true ∧
      hasTag southZeroTags "GPS GPSLongitude" = true :=
  have h := C4_gps_requires_both_and_no_partial southZeroTags
    { lat := 0, lon := 0, lat_ref := "S", lon_ref := "W" } southZeroTags_gps
  ⟨h.1, h.2.1⟩

/-- C5: in the highlight reconciler the flat artist value wins over the
structured `0th.Artist`; the structured value is used only when the flat
artist is absent. -/
theorem C5_author_precedence (p : FlatTags) (px : PiexifOut) (w h : Option ℕ)
    (sh : Option String) (a b : String) :
    (p.artist = some a → a ≠ "" →
      (buildHighlights p px w h sh).author = some (PVal.text a)) ∧
    (p.artist = none → pget px "0th" "Artist" = some (PVal.text b) → b ≠ "" →
      (buildHighlights p px w h sh).author = some (PVal.text b)) := by
  constructor
  · intro ha hne
    show authorOf p px = _
    unfold authorOf
    simp [oStr, ha, pyOrV, truthy, truthyO, hne]
  · intro ha hb hbne
    show authorOf p px = _
    unfold authorOf
    simp [oStr, ha, pyOrV, hb, truthy, truthyO, hbne]

/-- C5 witness: flat artist A beats structured artist B; with the flat
artist absent the structured artist B is surfaced. -/
theorem C5_author_precedence_witness :
    (buildHighlights { emptyFlat with artist := some "A" }
        [("0th", [("Artist", PVal.text "B")])] none none none).author =
      some (PVal.text "A") ∧
    (buildHighlights emptyFlat
        [("0th", [("Artist", PVal.text "B")])] none none none).author =
      some (PVal.text "B") := by
  constructor
  · exact (C5_author_precedence { emptyFlat with artist := some "A" }
      [("0th", [("Artist", PVal.text "B")])] none none none "A" "B").1 rfl (by decide)
  · exact (C5_author_precedence emptyFlat
      [("0th", [("Artist", PVal.text "B")])] none none none "A" "B").2 rfl rfl (by decide)

/-- A string whose character list is nonempty is not the empty string. -/
lemma ne_empty_of_data_ne_nil {s : String} (h : s.data ≠ []) : s ≠ "" := by
  intro hc
  rw [hc] at h
  exact h rfl

/-- Appending to a nonempty string keeps it nonempty. -/
lemma append_ne_empty_left (a b : String) (h : a ≠ "") : a ++ b ≠ "" := by
  refine ne_empty_of_data_ne_nil ?_
  rw [String.data_append]
  intro hc
  rcases List.append_eq_nil.mp hc with ⟨h1, _⟩
  exact h (by cases a; simp_all)

/-- Pushing a character makes a string nonempty. -/
lemma push_ne_empty (s : String) (c : Char) : s.push c ≠ "" := by
  refine ne_empty_of_data_ne_nil ?_
  simp

/-- The digit accumulator never shrinks. -/
lemma toDigitsCore_length (b : ℕ) :
    ∀ (fuel n : ℕ) (ds : List Char), ds.length ≤ (Nat.toDigitsCore b fuel n ds).length := by
  intro fuel
  induction fuel with
  | zero => intro n ds; simp [Nat.toDigitsCore]
  | succ f ih =>
    intro n ds
    unfold Nat.toDigitsCore
    by_cases h : n / b = 0
    · simp [h]
    · simp only [h, if_neg]
      calc ds.length ≤ (Nat.digitChar (n % b) :: ds).length := by simp
        _ ≤ _ := ih (n / b) (Nat.digitChar (n % b) :: ds)

/-- The decimal digit list of a natural number is nonempty. -/
lemma toDigits_ne_nil (b n : ℕ) : Nat.toDigits b n ≠ [] := by
  unfold Nat.toDigits Nat.toDigitsCore
  by_cases h : n / b = 0
  · simp [h]
  · rw [if_neg h]
    intro hc
    have hlen := toDigitsCore_length b n (n / b) [Nat.digitChar (n % b)]
    rw [hc] at hlen
    simp at hlen

/-- `Nat.repr` is never the empty string. -/
lemma natRepr_ne_empty (n : ℕ) : Nat.repr n ≠ "" := by
  refine ne_empty_of_data_ne_nil ?_
  show (Nat.toDigits 10 n).asString.data ≠ []
  exact toDigits_ne_nil 10 n

/-- `toString` of an integer is never empty. -/
lemma intToString_ne_empty (i : ℤ) : toString i ≠ "" := by
  show Int.repr i ≠ ""
  cases i with
  | ofNat m => exact natRepr_ne_empty m
  | negSucc m =>
    show "-" ++ Nat.repr (m + 1) ≠ ""
    exact append_ne_empty_left _ _ (by decide)

/-- `toString` of a byte list is never empty. -/
lemma listToString_ne_empty (l : List ℕ) : toString l ≠ "" := by
  show List.toString l ≠ ""
  match l with
  | [] => decide
  | [x] =>
    show "[" ++ toString x ++ "]" ≠ ""
    exact append_ne_empty_left _ _ (append_ne_empty_left _ _ (by decide))
  | x :: y :: xs => exact push_ne_empty _ _

/-- A truthy tag value renders to a nonempty string. -/
lemma asStr_ne_empty (v : PVal) (hv : truthy v = true) : asStr v ≠ "" := by
  cases v with
  | text s => simpa [truthy] using hv
  | bytes bs => exact listToString_ne_empty bs
  | intv n => exact intToString_ne_empty n

/-- A space-join whose first part is nonempty is nonempty. -/
lemma pyJoin_ne_empty (sep x : String) (l : List String) (hx : x ≠ "") :
    pyJoin sep (x :: l) ≠ "" := by
  cases l with
  | nil => simpa [pyJoin] using hx
  | cons y ys =>
    show x ++ sep ++ pyJoin sep (y :: ys) ≠ ""
    exact append_ne_empty_left _ _ (append_ne_empty_left _ _ hx)

/-- If the make-or-model chain is truthy, the joined device string is
nonempty. -/
lemma join_filtered_ne_empty (mk md : Option PVal)
    (hc : truthyO (pyOrV mk md) = true) :
    pyJoin " " ((([mk, md].filterMap id).filter truthy).map asStr) ≠ "" := by
  cases mk with
  | some v =>
    by_cases hv : truthy v = true
    · cases md with
      | none =>
        have he : (([some v, none].filterMap id).filter truthy) = [v] := by simp [hv]
        rw [he]
        simpa [pyJoin] using asStr_ne_empty v hv
      | some u =>
        by_cases hu : truthy u = true
        · have he : (([some v, some u].filterMap id).filter truthy) = [v, u] := by
            simp [hv, hu]
          rw [he]
          exact pyJoin_ne_empty _ _ _ (asStr_ne_empty v hv)
        · have he : (([some v, some u].filterMap id).filter truthy) = [v] := by
            simp [hv, hu]
          rw [he]
          simpa [pyJoin] using asStr_ne_empty v hv
    · cases md with
      | none => simp [pyOrV, hv, truthyO] at hc
      | some u =>
        have hu : truthy u = true := by simpa [pyOrV, hv, truthyO] using hc
        have he : (([some v, some u].filterMap id).filter truthy) = [u] := by
          simp [hv, hu]
        rw [he]
        simpa [pyJoin] using asStr_ne_empty u hu
  | none =>
    cases md with
    | none => simp [pyOrV, truthyO] at hc
    | some u =>
      have hu : truthy u = true := by simpa [pyOrV, truthyO] using hc
      have he : ((([none, some u] : List (Option PVal)).filterMap id).filter truthy) = [u] := by
        simp [hu]
      rw [he]
      simpa [pyJoin] using asStr_ne_empty u hu

/-- A value gated by its own truthiness is truthy exactly when present. -/
lemma truthyO_gate (x : Option PVal) :
    truthyO (if truthyO x = true then x else none) =
      (if truthyO x = true then x else none).isSome := by
  by_cases h : truthyO x = true
  · simp only [if_pos h]
    cases x with
    | none => rfl
    | some v => rw [h]; rfl
  · simp only [if_neg h]
    rfl

/-- The author highlight is set exactly when it is truthy. -/
lemma truthyO_authorOf (p : FlatTags) (px : PiexifOut) :
    truthyO (authorOf p px) = (authorOf p px).isSome := by
  unfold authorOf
  exact truthyO_gate _

/-- The datetime highlight is set exactly when it is truthy. -/
lemma truthyO_datetimeOf (p : FlatTags) (px : PiexifOut) :
    truthyO (datetimeOf p px) = (datetimeOf p px).isSome := by
  unfold datetimeOf
  exact truthyO_gate _

/-- The device highlight is set exactly when it is truthy (a set device
string is never empty). -/
lemma truthyS_deviceOf (p : FlatTags) (px : PiexifOut) :
    truthyS (deviceOf p px) = (deviceOf p px).isSome := by
  unfold deviceOf
  by_cases hc :
      truthyO (pyOrV (pyOrV (oStr p.make) (pget px "0th" "Make"))
        (pyOrV (oStr p.model) (pget px "0th" "Model"))) = true
  · rw [if_pos hc]
    have hne := join_filtered_ne_empty _ _ hc
    simp [truthyS, hne]
  · rw [if_neg hc]
    simp [truthyS]

/-- C6: the notes list carries one fixed warning for each of the four
highlight fields GPS, author, device, datetime that ended up absent, in
exactly that order; in particular a record with none of the four yields
exactly the four warnings in order. -/
theorem C6_notes_fixed_order (p : FlatTags) (px : PiexifOut) (w h : Option ℕ)
    (sh : Option String) :
    ((buildHighlights p px w h sh).notes =
      (if (buildHighlights p px w h sh).gps.isNone then [noteGps] else []) ++
      (if (buildHighlights p px w h sh).author.isNone then [noteAuthor] else []) ++
      (if (buildHighlights p px w h sh).device.isNone then [noteDevice] else []) ++
      (if (buildHighlights p px w h sh).datetime_original.isNone then [noteDatetime] else [])) ∧
    (buildHighlights emptyFlat [] none none none).notes =
      [noteGps, noteAuthor, noteDevice, noteDatetime] := by
  constructor
  · show notesOf p.gps (authorOf p px) (deviceOf p px) (datetimeOf p px) =
      (if p.gps.isNone then [noteGps] else []) ++
      (if (authorOf p px).isNone then [noteAuthor] else []) ++
      (if (deviceOf p px).isNone then [noteDevice] else []) ++
      (if (datetimeOf p px).isNone then [noteDatetime] else [])
    unfold notesOf
    rw [truthyO_authorOf, truthyS_deviceOf, truthyO_datetimeOf]
    cases p.gps <;> cases authorOf p px <;> cases deviceOf p px <;>
      cases datetimeOf p px <;> rfl
  · rfl

/-- Bankers rounding fixes integers. -/
lemma pyRound0_intCast (m : ℤ) : pyRound0 ((m : ℚ)) = m := by
  unfold pyRound0
  rw [Int.floor_intCast]
  rw [if_pos (by norm_num)]

/-- fmt1 at 0 prints one decimal place. -/
lemma fmt1_zero : fmt1 0 = "0.0" := by
  unfold fmt1
  have harg : |(0 : ℚ)| * 10 = ((0 : ℤ) : ℚ) := by norm_num
  rw [harg, pyRound0_intCast]
  rw [if_neg (by norm_num : ¬((0 : ℚ) < 0))]
  decide

/-- fmt1 at 3/2 prints 1.5. -/
lemma fmt1_threeHalves : fmt1 ((1536 : ℚ) / 1024) = "1.5" := by
  unfold fmt1
  have habs : |(1536 : ℚ) / 1024| = 1536 / 1024 := abs_of_nonneg (by norm_num)
  have harg : |(1536 : ℚ) / 1024| * 10 = ((15 : ℤ) : ℚ) := by
    rw [habs]
    norm_num
  rw [harg, pyRound0_intCast]
  rw [if_neg (by norm_num : ¬((1536 : ℚ) / 1024 < 0))]
  decide

/-- fmt1 at 1 prints 1.0. -/
lemma fmt1_one : fmt1 ((1048576 : ℚ) / 1024 / 1024) = "1.0" := by
  unfold fmt1
  have harg : |(1048576 : ℚ) / 1024 / 1024| * 10 = ((10 : ℤ) : ℚ) := by norm_num
  rw [harg, pyRound0_intCast]
  rw [if_neg (by norm_num : ¬((1048576 : ℚ) / 1024 / 1024 < 0))]
  decide

/-- C7: `human_size` repeatedly divides by 1024 until the magnitude drops
below 1024 (capping at the PB unit), formatting the result to one decimal
place with the matching binary unit; in particular 0, 1536 and 1048576
bytes format as 0.0B, 1.5KB and 1.0MB. -/
theorem C7_human_size_formatting :
    human_size 0 = "0.0B" ∧ human_size 1536 = "1.5KB" ∧ human_size 1048576 = "1.0MB" ∧
    ∀ n : ℚ, ∃ k : ℕ, k ≤ 5 ∧ human_size n = fmt1 (n / 1024 ^ k) ++ unitAt k ∧
      (k = 5 ∨ n / 1024 ^ k < 1024) ∧ ∀ j : ℕ, j < k → 1024 ≤ n / 1024 ^ j := by
  refine ⟨?_, ?_, ?_, ?_⟩
  · show hsGo 0 ["B", "KB", "MB", "GB", "TB"] = "0.0B"
    simp only [hsGo]
    rw [if_pos (by norm_num : (0 : ℚ) < 1024), fmt1_zero]
    decide
  · show hsGo 1536 ["B", "KB", "MB", "GB", "TB"] = "1.5KB"
    simp only [hsGo]
    rw [if_neg (by norm_num : ¬((1536 : ℚ) < 1024)),
      if_pos (by norm_num : (1536 : ℚ) / 1024 < 1024), fmt1_threeHalves]
    decide
  · show hsGo 1048576 ["B", "KB", "MB", "GB", "TB"] = "1.0MB"
    simp only [hsGo]
    rw [if_neg (by norm_num : ¬((1048576 : ℚ) < 1024)),
      if_neg (by norm_num : ¬((1048576 : ℚ) / 1024 < 1024)),
      if_pos (by norm_num : (1048576 : ℚ) / 1024 / 1024 < 1024), fmt1_one]
    decide
  · intro n
    have e0 : n / 1024 ^ 0 = n := by norm_num
    have e1 : n / 1024 ^ 1 = n / 1024 := by ring
    have e2 : n / 1024 ^ 2 = n / 1024 / 1024 := by ring
    have e3 : n / 1024 ^ 3 = n / 1024 / 1024 / 1024 := by ring
    have e4 : n / 1024 ^ 4 = n / 1024 / 1024 / 1024 / 1024 := by ring
    have e5 : n / 1024 ^ 5 = n / 1024 / 1024 / 1024 / 1024 / 1024 := by ring
    simp only [human_size, hsGo]
    split_ifs with h0 h1 h2 h3 h4
    · refine ⟨0, by norm_num, by rw [e0]; rfl, Or.inr (by rwa [e0]), ?_⟩
      intro j hj
      exact absurd hj (by omega)
    · refine ⟨1, by norm_num, by rw [e1]; rfl, Or.inr (by rwa [e1]), ?_⟩
      intro j hj
      interval_cases j
      · rw [e0]; exact not_lt.mp h0
    · refine ⟨2, by norm_num, by rw [e2]; rfl, Or.inr (by rwa [e2]), ?_⟩
      intro j hj
      interval_cases j
      · rw [e0]; exact not_lt.mp h0
      · rw [e1]; exact not_lt.mp h1
    · refine ⟨3, by norm_num, by rw [e3]; rfl, Or.inr (by rwa [e3]), ?_⟩
      intro j hj
      interval_cases j
      · rw [e0]; exact not_lt.mp h0
      · rw [e1]; exact not_lt.mp h1
      · rw [e2]; exact not_lt.mp h2
    · refine ⟨4, by norm_num, by rw [e4]; rfl, Or.inr (by rwa [e4]), ?_⟩
      intro j hj
      interval_cases j
      · rw [e0]; exact not_lt.mp h0
      · rw [e1]; exact not_lt.mp h1
      · rw [e2]; exact not_lt.mp h2
      · rw [e3]; exact not_lt.mp h3
    · refine ⟨5, le_refl 5, by rw [e5]; rfl, Or.inl rfl, ?_⟩
      intro j hj
      interval_cases j
      · rw [e0]; exact not_lt.mp h0
      · rw [e1]; exact not_lt.mp h1
      · rw [e2]; exact not_lt.mp h2
      · rw [e3]; exact not_lt.mp h3
      · rw [e4]; exact not_lt.mp h4

/-- C7 witness: the loop characterization applied at 1536 bytes. -/
theorem C7_human_size_formatting_witness :
    ∃ k : ℕ, k ≤ 5 ∧ human_size 1536 = fmt1 ((1536 : ℚ) / 1024 ^ k) ++ unitAt k ∧
      (k = 5 ∨ (1536 : ℚ) / 1024 ^ k < 1024) ∧
      ∀ j : ℕ, j < k → 1024 ≤ (1536 : ℚ) / 1024 ^ j :=
  C7_human_size_formatting.2.2.2 1536

/-- C8 (counterexample to the trailing-only reading): the source strips
NUL characters from BOTH ends (`.strip` with a char set), so a bytes
value with a leading NUL byte cleans to "a", not to the
leading-NUL-preserving string the trailing-only reading predicts. -/
theorem C8_strip_counterexample :
    parse_piexif noTbl (some nulByteTree) = [("0th", [("0", PVal.text "a")])] ∧
    cleanValSpecTrailing (PVal.bytes [0, 97]) =
      PVal.text (String.mk [Char.ofNat 0, Char.ofNat 97]) ∧
    PVal.text "a" ≠ PVal.text (String.mk [Char.ofNat 0, Char.ofNat 97]) := by
  refine ⟨?_, ?_, ?_⟩
  · decide
  · decide
  · decide

/-- C8 (amended): a parse failure yields the empty tree; each tag value is
name-resolved and cleaned; a bytes value is decoded permissively and has
leading AND trailing NUL characters stripped (the repr fallback is
unreachable because replacement decoding is total); non-bytes values pass
through unchanged. -/
theorem C8_parse_piexif_amended :
    (∀ tbl, parse_piexif tbl none = []) ∧
    (∀ tbl tree, parse_piexif tbl (some tree) =
      tree.map (fun p =>
        (p.1, p.2.map (fun q => ((tbl p.1 q.1).getD (toString q.1), cleanVal q.2))))) ∧
    (∀ bs, cleanVal (PVal.bytes bs) =
      PVal.text (String.mk
        ((((decodeUtf8Replace bs).dropWhile (· == Char.ofNat 0)).reverse.dropWhile
          (· == Char.ofNat 0)).reverse))) ∧
    (∀ s, cleanVal (PVal.text s) = PVal.text s) ∧
    (∀ n, cleanVal (PVal.intv n) = PVal.intv n) :=
  ⟨fun _ => rfl, fun _ _ => rfl, fun _ => rfl, fun _ => rfl, fun _ => rfl⟩

end Sid
